import Mathlib

/-!
Verification of the `ai-workflow.ipynb` notebook (langchain-summarizer).

Shallow embedding of the notebook's code: the Pydantic schema and its date
validator, the single-node LangGraph agent, the HTML retrieval helper, the
batch runner cell and the unit-runner tool.  Effectful code (HTTP fetch,
model invocation) is embedded in an explicit trace-plus-exception monad so
that call counts, call order and exception propagation are provable facts.
-/

deriving instance DecidableEq for Except

/-- Python exception values that can arise in the notebook. -/
inductive PyError where
  | valueError : String → PyError
  | requestsError : String → PyError
  | outputParseError : String → PyError
  | indexError : String → PyError
  | keyError : String → PyError
deriving DecidableEq, Repr

/-! ### The `datetime` fragment used by `SummarySchema.validate_date`

`validate_date` calls `datetime.fromisoformat(v)` and on success reformats
with `datetime.strftime(date, "%Y-%m-%d")`.  We embed the documented
behaviour of `datetime.fromisoformat` (the format emitted by
`datetime.isoformat`): `YYYY-MM-DD[*HH[:MM[:SS[.fff[fff]]]][+HH:MM[:SS]]]`,
where `*` is an arbitrary single separator character, together with the
calendar validity checks (year 1..9999, month 1..12, day bounded by the
month length with Gregorian leap years). -/

/-- A parsed `datetime.datetime` value: calendar date, time of day,
microseconds, and an optional UTC offset in seconds. -/
structure PyDateTime where
  year : Nat
  month : Nat
  day : Nat
  hour : Nat
  minute : Nat
  second : Nat
  microsecond : Nat
  tzOffsetSeconds : Option Int
deriving DecidableEq, Repr

/-- Whether `y` is a Gregorian leap year (`calendar.isleap`). -/
def isLeapYear (y : Nat) : Bool :=
  y % 4 = 0 && (y % 100 ≠ 0 || y % 400 = 0)

/-- Number of days in month `m` of year `y` (`calendar.monthrange`). -/
def daysInMonth (y m : Nat) : Nat :=
  if m = 2 then (if isLeapYear y then 29 else 28)
  else if m = 4 || m = 6 || m = 9 || m = 11 then 30
  else 31

/-- Value of a decimal digit character, `none` for non-digits. -/
def parseDigit (c : Char) : Option Nat :=
  if 48 ≤ c.toNat && c.toNat ≤ 57 then some (c.toNat - 48) else none

/-- Two-digit decimal number. -/
def parse2 (c1 c2 : Char) : Option Nat := do
  let d1 ← parseDigit c1
  let d2 ← parseDigit c2
  pure (10 * d1 + d2)

/-- Four-digit decimal number. -/
def parse4 (c1 c2 c3 c4 : Char) : Option Nat := do
  let hi ← parse2 c1 c2
  let lo ← parse2 c3 c4
  pure (100 * hi + lo)

/-- Parse the fractional-seconds digits into microseconds: `fromisoformat`
accepts exactly 3 or 6 digits after the decimal point. -/
def parseFraction (cs : List Char) : Option (Nat × List Char) :=
  match cs with
  | c1 :: c2 :: c3 :: c4 :: c5 :: c6 :: rest => do
      match parseDigit c4 with
      | some _ =>
          let hi ← parse4 c1 c2 c3 c4
          let lo ← parse2 c5 c6
          pure (100 * hi + lo, rest)
      | none =>
          let ms ← do
            let d1 ← parseDigit c1
            let d2 ← parseDigit c2
            let d3 ← parseDigit c3
            pure (100 * d1 + 10 * d2 + d3)
          pure (ms * 1000, c4 :: c5 :: c6 :: rest)
  | c1 :: c2 :: c3 :: rest => do
      let d1 ← parseDigit c1
      let d2 ← parseDigit c2
      let d3 ← parseDigit c3
      pure ((100 * d1 + 10 * d2 + d3) * 1000, rest)
  | _ => none

/-- Parse the optional timezone offset `+HH:MM[:SS]` (sign `+` or `-`),
consuming the whole remaining input; the offset magnitude stays strictly
below 24 hours (`datetime.timezone`'s requirement) because each field is
range-checked. -/
def parseTzOffset (cs : List Char) : Option Int :=
  match cs with
  | sgn :: h1 :: h2 :: ':' :: m1 :: m2 :: rest => do
      let sign : Int ← if sgn = '+' then some 1 else if sgn = '-' then some (-1) else none
      let hh ← parse2 h1 h2
      if hh ≥ 24 then none else
      let mm ← parse2 m1 m2
      if mm ≥ 60 then none else
      match rest with
      | [] => pure (sign * (3600 * (hh : Int) + 60 * mm))
      | ':' :: s1 :: s2 :: [] => do
          let ss ← parse2 s1 s2
          if ss ≥ 60 then none else
          pure (sign * (3600 * (hh : Int) + 60 * mm + ss))
      | _ => none
  | _ => none

/-- Parse the time-of-day portion `HH[:MM[:SS[.fff[fff]]]]` followed by an
optional timezone offset, consuming the whole remaining input. -/
def parseTimePart (cs : List Char) : Option (Nat × Nat × Nat × Nat × Option Int) :=
  match cs with
  | h1 :: h2 :: rest => do
      let hh ← parse2 h1 h2
      if hh ≥ 24 then none else
      match rest with
      | [] => pure (hh, 0, 0, 0, none)
      | ':' :: m1 :: m2 :: rest2 => do
          let mm ← parse2 m1 m2
          if mm ≥ 60 then none else
          match rest2 with
          | [] => pure (hh, mm, 0, 0, none)
          | ':' :: s1 :: s2 :: rest3 => do
              let ss ← parse2 s1 s2
              if ss ≥ 60 then none else
              match rest3 with
              | [] => pure (hh, mm, ss, 0, none)
              | '.' :: rest4 => do
                  let (us, rest5) ← parseFraction rest4
                  match rest5 with
                  | [] => pure (hh, mm, ss, us, none)
                  | _ => do
                      let tz ← parseTzOffset rest5
                      pure (hh, mm, ss, us, some tz)
              | _ => do
                  let tz ← parseTzOffset rest3
                  pure (hh, mm, ss, 0, some tz)
          | _ => do
              let tz ← parseTzOffset rest2
              pure (hh, mm, 0, 0, some tz)
      | _ => do
          let tz ← parseTzOffset rest
          pure (hh, 0, 0, 0, some tz)
  | _ => none

/-- Parse the date portion `YYYY-MM-DD` with calendar validity checks and
return the unconsumed remainder of the input. -/
def parseDatePart (cs : List Char) : Option (Nat × Nat × Nat × List Char) :=
  match cs with
  | y1 :: y2 :: y3 :: y4 :: s1 :: m1 :: m2 :: s2 :: d1 :: d2 :: rest =>
      if s1 = '-' && s2 = '-' then do
        let y ← parse4 y1 y2 y3 y4
        if y = 0 then none else
        let m ← parse2 m1 m2
        if m = 0 || m > 12 then none else
        let d ← parse2 d1 d2
        if d = 0 || d > daysInMonth y m then none else
        pure (y, m, d, rest)
      else none
  | _ => none

/-- `datetime.fromisoformat` on a list of characters: date portion, then
optionally a single arbitrary separator character and a time portion. -/
def fromisoformatCore (cs : List Char) : Option PyDateTime := do
  let (y, m, d, rest) ← parseDatePart cs
  match rest with
  | [] => pure ⟨y, m, d, 0, 0, 0, 0, none⟩
  | _ :: timeChars => do
      let (hh, mm, ss, us, tz) ← parseTimePart timeChars
      pure ⟨y, m, d, hh, mm, ss, us, tz⟩

/-- `datetime.fromisoformat` on a string. -/
def fromisoformat (v : String) : Option PyDateTime :=
  fromisoformatCore v.data

/-- The decimal digit character for `n < 10` (unreachable otherwise). -/
def digitChar : Nat → Char
  | 0 => '0' | 1 => '1' | 2 => '2' | 3 => '3' | 4 => '4'
  | 5 => '5' | 6 => '6' | 7 => '7' | 8 => '8' | 9 => '9'
  | _ => '*'

/-- Two-digit zero-padded decimal rendering (the `%m`/`%d` directives; both
fields are at most two digits wide for any parsed date). -/
def pad2 (n : Nat) : List Char := [digitChar (n / 10), digitChar (n % 10)]

/-- Four-digit zero-padded decimal rendering (the `%Y` directive; years of
parsed dates are at most 9999): the zero-padded pair of two-digit groups. -/
def pad4 (n : Nat) : List Char :=
  pad2 (n / 100) ++ pad2 (n % 100)

/-- `datetime.strftime(date, "%Y-%m-%d")`. -/
def strftimeYmd (dt : PyDateTime) : String :=
  String.mk (pad4 dt.year ++ '-' :: pad2 dt.month ++ '-' :: pad2 dt.day)

/-- `SummarySchema.validate_date`: parse `v` with `datetime.fromisoformat`;
on success return the reformatted `%Y-%m-%d` string, on a value error
re-raise `ValueError("datePublished is not a valid date")`. -/
def validate_date (v : String) : Except PyError String :=
  match fromisoformat v with
  | some date => .ok (strftimeYmd date)
  | none => .error (.valueError "datePublished is not a valid date")

example : validate_date "2024-03-05" = .ok "2024-03-05" := by decide
example : validate_date "2024-03-05T12:30:59" = .ok "2024-03-05" := by decide
example : validate_date "2024-03-05 12:30:59.123456+02:00" = .ok "2024-03-05" := by decide
example : validate_date "2024-02-30" =
    .error (.valueError "datePublished is not a valid date") := by decide
example : validate_date "not a date" =
    .error (.valueError "datePublished is not a valid date") := by decide
example : validate_date "0000-01-01" =
    .error (.valueError "datePublished is not a valid date") := by decide
example : validate_date "2023-02-28" = .ok "2023-02-28" := by decide
example : validate_date "2024-12-31T23" = .ok "2024-12-31" := by decide
example : validate_date "2024-12-31T" =
    .error (.valueError "datePublished is not a valid date") := by decide

/-! ### Facts about the date parser and formatter -/

lemma parseDigit_le {c : Char} {d : Nat} (h : parseDigit c = some d) : d ≤ 9 := by
  unfold parseDigit at h
  split at h
  next hc =>
    simp only [Option.some.injEq] at h
    simp only [Bool.and_eq_true, decide_eq_true_eq] at hc
    omega
  next => simp at h

lemma parse2_le {c1 c2 : Char} {n : Nat} (h : parse2 c1 c2 = some n) : n ≤ 99 := by
  cases h1 : parseDigit c1 with
  | none => simp [parse2, h1] at h
  | some d1 =>
    cases h2 : parseDigit c2 with
    | none => simp [parse2, h1, h2] at h
    | some d2 =>
      simp [parse2, h1, h2] at h
      have := parseDigit_le h1
      have := parseDigit_le h2
      omega

lemma parse4_le {c1 c2 c3 c4 : Char} {n : Nat} (h : parse4 c1 c2 c3 c4 = some n) :
    n ≤ 9999 := by
  cases h1 : parse2 c1 c2 with
  | none => simp [parse4, h1] at h
  | some hi =>
    cases h2 : parse2 c3 c4 with
    | none => simp [parse4, h1, h2] at h
    | some lo =>
      simp [parse4, h1, h2] at h
      have := parse2_le h1
      have := parse2_le h2
      omega

lemma parseDigit_digitChar {n : Nat} (h : n ≤ 9) : parseDigit (digitChar n) = some n := by
  interval_cases n <;> decide

lemma parse2_pad2 {n : Nat} (h : n ≤ 99) :
    parse2 (digitChar (n / 10)) (digitChar (n % 10)) = some n := by
  have h1 : n / 10 ≤ 9 := by omega
  have h2 : n % 10 ≤ 9 := by omega
  simp [parse2, parseDigit_digitChar h1, parseDigit_digitChar h2]
  omega

lemma parse4_pad4 {n : Nat} (h : n ≤ 9999) :
    parse4 (digitChar (n / 100 / 10)) (digitChar (n / 100 % 10))
      (digitChar (n % 100 / 10)) (digitChar (n % 100 % 10)) = some n := by
  simp [parse4, parse2_pad2 (show n / 100 ≤ 99 by omega),
    parse2_pad2 (show n % 100 ≤ 99 by omega)]
  omega

lemma daysInMonth_le (y m : Nat) : daysInMonth y m ≤ 31 := by
  unfold daysInMonth
  split_ifs <;> omega

lemma parseDatePart_bounds {cs : List Char} {y m d : Nat} {rest : List Char}
    (h : parseDatePart cs = some (y, m, d, rest)) :
    1 ≤ y ∧ y ≤ 9999 ∧ 1 ≤ m ∧ m ≤ 12 ∧ 1 ≤ d ∧ d ≤ daysInMonth y m := by
  unfold parseDatePart at h
  split at h
  next y1 y2 y3 y4 s1 m1 m2 s2 d1 d2 rest' =>
    split at h
    next =>
      cases h4 : parse4 y1 y2 y3 y4 with
      | none => simp [h4] at h
      | some yv =>
        simp only [h4, Option.bind_eq_bind, Option.some_bind] at h
        split at h
        next => simp at h
        next hy0 =>
          cases hm2 : parse2 m1 m2 with
          | none => simp [hm2] at h
          | some mv =>
            simp only [hm2, Option.bind_eq_bind, Option.some_bind] at h
            split at h
            next => simp at h
            next hmok =>
              cases hd2 : parse2 d1 d2 with
              | none => simp [hd2] at h
              | some dv =>
                simp only [hd2, Option.bind_eq_bind, Option.some_bind] at h
                split at h
                next => simp at h
                next hdok =>
                  simp only [pure, Option.some.injEq, Prod.mk.injEq] at h
                  obtain ⟨rfl, rfl, rfl, rfl⟩ := h
                  simp only [Bool.or_eq_true, decide_eq_true_eq, not_or] at hy0 hmok hdok
                  have := parse4_le h4
                  refine ⟨by omega, by omega, by omega, by omega, by omega, by omega⟩
    next => simp at h
  next => simp at h

lemma fromisoformatCore_bounds {cs : List Char} {dt : PyDateTime}
    (h : fromisoformatCore cs = some dt) :
    1 ≤ dt.year ∧ dt.year ≤ 9999 ∧ 1 ≤ dt.month ∧ dt.month ≤ 12 ∧
      1 ≤ dt.day ∧ dt.day ≤ daysInMonth dt.year dt.month := by
  unfold fromisoformatCore at h
  cases hp : parseDatePart cs with
  | none => simp [hp] at h
  | some q =>
    obtain ⟨y, m, d, rest⟩ := q
    have hb := parseDatePart_bounds hp
    simp only [hp, Option.bind_eq_bind, Option.some_bind] at h
    cases rest with
    | nil =>
      simp only [Option.pure_def, Option.some.injEq] at h
      subst h
      exact hb
    | cons sep timeChars =>
      cases ht : parseTimePart timeChars with
      | none => simp [ht] at h
      | some t =>
        obtain ⟨hh, mm, ss, us, tz⟩ := t
        simp only [ht, Option.bind_eq_bind, Option.some_bind, Option.pure_def,
          Option.some.injEq] at h
        subst h
        exact hb

lemma parseDatePart_roundtrip {y m d : Nat} (hy1 : 1 ≤ y) (hy : y ≤ 9999)
    (hm1 : 1 ≤ m) (hm : m ≤ 12) (hd1 : 1 ≤ d) (hd : d ≤ daysInMonth y m) :
    parseDatePart (pad4 y ++ '-' :: pad2 m ++ '-' :: pad2 d) = some (y, m, d, []) := by
  show parseDatePart (digitChar (y / 100 / 10) :: digitChar (y / 100 % 10) ::
      digitChar (y % 100 / 10) :: digitChar (y % 100 % 10) :: '-' ::
      digitChar (m / 10) :: digitChar (m % 10) :: '-' ::
      digitChar (d / 10) :: digitChar (d % 10) :: []) = some (y, m, d, [])
  unfold parseDatePart
  have hdm := daysInMonth_le y m
  simp [parse4_pad4 hy, parse2_pad2 (show m ≤ 99 by omega),
    parse2_pad2 (show d ≤ 99 by omega), Nat.not_eq_zero_of_lt hy1,
    Nat.not_eq_zero_of_lt hm1, Nat.not_eq_zero_of_lt hd1, Nat.not_lt.mpr hm,
    Nat.not_lt.mpr hd]

lemma fromisoformatCore_roundtrip {y m d : Nat} (hy1 : 1 ≤ y) (hy : y ≤ 9999)
    (hm1 : 1 ≤ m) (hm : m ≤ 12) (hd1 : 1 ≤ d) (hd : d ≤ daysInMonth y m) :
    fromisoformatCore (pad4 y ++ '-' :: pad2 m ++ '-' :: pad2 d) =
      some ⟨y, m, d, 0, 0, 0, 0, none⟩ := by
  unfold fromisoformatCore
  rw [parseDatePart_roundtrip hy1 hy hm1 hm hd1 hd]
  rfl

/-- The canonical calendar shape over characters: ten characters, eight
decimal digits separated by dashes at positions 4 and 7. -/
def isCanonicalYmdChars (cs : List Char) : Bool :=
  match cs with
  | [c1, c2, c3, c4, s1, c5, c6, s2, c7, c8] =>
      c1.isDigit && c2.isDigit && c3.isDigit && c4.isDigit && s1 = '-' &&
        c5.isDigit && c6.isDigit && s2 = '-' && c7.isDigit && c8.isDigit
  | _ => false

/-- The canonical calendar form `YYYY-MM-DD` on strings. -/
def isCanonicalYmd (s : String) : Bool :=
  isCanonicalYmdChars s.data

lemma digitChar_isDigit {n : Nat} (h : n ≤ 9) : (digitChar n).isDigit = true := by
  interval_cases n <;> decide

lemma isCanonicalYmd_strftimeYmd {dt : PyDateTime} (hy : dt.year ≤ 9999)
    (hm : dt.month ≤ 99) (hd : dt.day ≤ 99) :
    isCanonicalYmd (strftimeYmd dt) = true := by
  show isCanonicalYmdChars
      (pad4 dt.year ++ '-' :: pad2 dt.month ++ '-' :: pad2 dt.day) = true
  simp [isCanonicalYmdChars, pad4, pad2,
    digitChar_isDigit (show dt.year / 100 / 10 ≤ 9 by omega),
    digitChar_isDigit (show dt.year / 100 % 10 ≤ 9 by omega),
    digitChar_isDigit (show dt.year % 100 / 10 ≤ 9 by omega),
    digitChar_isDigit (show dt.year % 100 % 10 ≤ 9 by omega),
    digitChar_isDigit (show dt.month / 10 ≤ 9 by omega),
    digitChar_isDigit (show dt.month % 10 ≤ 9 by omega),
    digitChar_isDigit (show dt.day / 10 ≤ 9 by omega),
    digitChar_isDigit (show dt.day % 10 ≤ 9 by omega)]

/-- C1: for every ISO-8601-parseable date string `v` (any string accepted by
`datetime.fromisoformat`), the `datePublished` validator `validate_date`
returns the parsed date reformatted with the `%Y-%m-%d` pattern, which is in
the canonical calendar form `YYYY-MM-DD`. -/
theorem validate_date_normalizes (v : String) (dt : PyDateTime)
    (h : fromisoformat v = some dt) :
    validate_date v = Except.ok (strftimeYmd dt) ∧
      isCanonicalYmd (strftimeYmd dt) = true := by
  have hb := fromisoformatCore_bounds h
  have hdm := daysInMonth_le dt.year dt.month
  constructor
  · unfold validate_date
    rw [h]
  · exact isCanonicalYmd_strftimeYmd (by omega) (by omega) (by omega)

/-- Witness for C1 at the concrete input `"2024-03-05T12:30:59+02:00"`. -/
theorem validate_date_normalizes_witness :
    fromisoformat "2024-03-05T12:30:59+02:00" =
        some ⟨2024, 3, 5, 12, 30, 59, 0, some 7200⟩ ∧
      strftimeYmd ⟨2024, 3, 5, 12, 30, 59, 0, some 7200⟩ = "2024-03-05" ∧
      (validate_date "2024-03-05T12:30:59+02:00" =
          Except.ok (strftimeYmd ⟨2024, 3, 5, 12, 30, 59, 0, some 7200⟩) ∧
        isCanonicalYmd (strftimeYmd ⟨2024, 3, 5, 12, 30, 59, 0, some 7200⟩) = true) :=
  ⟨by decide, by decide, validate_date_normalizes _ _ (by decide)⟩

/-- C2: `validate_date` raises
`ValueError("datePublished is not a valid date")` exactly when
`datetime.fromisoformat` cannot parse its input, and succeeds exactly when it
can. -/
theorem validate_date_raises_iff (v : String) :
    (validate_date v =
        Except.error (PyError.valueError "datePublished is not a valid date") ↔
      fromisoformat v = none) ∧
    ((validate_date v).isOk = true ↔ (fromisoformat v).isSome = true) := by
  unfold validate_date
  cases h : fromisoformat v <;> simp [Except.isOk, Except.toBool]

/-- C9: the `datePublished` validator is idempotent: whenever `validate_date`
accepts `v` with output `out`, it also accepts `out` and maps it to itself. -/
theorem validate_date_idempotent (v out : String)
    (h : validate_date v = Except.ok out) : validate_date out = Except.ok out := by
  unfold validate_date at h
  cases hf : fromisoformat v with
  | none => rw [hf] at h; simp at h
  | some dt =>
    rw [hf] at h
    simp only [Except.ok.injEq] at h
    subst h
    have hb := fromisoformatCore_bounds hf
    have hdm := daysInMonth_le dt.year dt.month
    have hparse : fromisoformat (strftimeYmd dt) =
        some ⟨dt.year, dt.month, dt.day, 0, 0, 0, 0, none⟩ := by
      show fromisoformatCore (String.mk
        (pad4 dt.year ++ '-' :: pad2 dt.month ++ '-' :: pad2 dt.day)).data = _
      exact fromisoformatCore_roundtrip (by omega) (by omega) (by omega)
        (by omega) (by omega) (by omega)
    unfold validate_date
    rw [hparse]
    rfl

/-- Witness for C9 at the concrete input `"2024-03-05T10:00"`. -/
theorem validate_date_idempotent_witness :
    validate_date "2024-03-05T10:00" = Except.ok "2024-03-05" ∧
      validate_date "2024-03-05" = Except.ok "2024-03-05" :=
  ⟨by decide, validate_date_idempotent "2024-03-05T10:00" "2024-03-05" (by decide)⟩

/-! ### The structured record `SummarySchema` -/

/-- The fixed `category` enumeration: the 15 literal values of the
`Literal[...]` type of the `category` field. -/
inductive Category where
  | ai
  | hardware
  | softwareDevelopment
  | webDevelopment
  | cloudComputing
  | dataScience
  | machineLearning
  | cybersecurity
  | networking
  | devOps
  | mobileDevelopment
  | gameDevelopment
  | databaseManagement
  | it
  | projectManagement
deriving DecidableEq, Fintype, Repr

/-- The literal string of each category value. -/
def Category.literal : Category → String
  | .ai => "AI"
  | .hardware => "Hardware"
  | .softwareDevelopment => "Software Development"
  | .webDevelopment => "Web Development"
  | .cloudComputing => "Cloud Computing"
  | .dataScience => "Data Science"
  | .machineLearning => "Machine Learning"
  | .cybersecurity => "Cybersecurity"
  | .networking => "Networking"
  | .devOps => "DevOps"
  | .mobileDevelopment => "Mobile Development"
  | .gameDevelopment => "Game Development"
  | .databaseManagement => "Database Management"
  | .it => "IT"
  | .projectManagement => "Project Management"

/-- The structured record: title, url, summary, content, category,
datePublished, imageUrl (the only field with a default, `None`), source. -/
structure SummarySchema where
  title : String
  url : String
  summary : String
  content : String
  category : Category
  datePublished : String
  imageUrl : Option String := none
  source : String
deriving DecidableEq, Repr

/-- Validation performed when Pydantic instantiates `SummarySchema`: the only
custom field validator in the schema is `validate_date` on `datePublished`
(whose value it rewrites); every other field is passed through unchanged. -/
def SummarySchema.validated (title url summary content : String)
    (category : Category) (datePublished : String) (imageUrl : Option String)
    (source : String) : Except PyError SummarySchema :=
  match validate_date datePublished with
  | .ok d => .ok ⟨title, url, summary, content, category, d, imageUrl, source⟩
  | .error e => .error e

/-- C3: the record has exactly the eight fields of `SummarySchema`; the
category enumeration has exactly 15 values; `imageUrl` is the field with
default `None`; and the only custom validation is the date-format check on
`datePublished` — instantiation fails exactly when `validate_date` fails,
and on success every field except `datePublished` is passed through
unchanged while `datePublished` carries the validator's output. -/
theorem summarySchema_shape :
    Fintype.card Category = 15 ∧
    (∀ t u s c cat dp src,
      ({ title := t, url := u, summary := s, content := c, category := cat,
         datePublished := dp, source := src } : SummarySchema).imageUrl = none) ∧
    (∀ t u s c cat dp img src r,
      SummarySchema.validated t u s c cat dp img src = Except.ok r →
        r.title = t ∧ r.url = u ∧ r.summary = s ∧ r.content = c ∧
          r.category = cat ∧ validate_date dp = Except.ok r.datePublished ∧
          r.imageUrl = img ∧ r.source = src) ∧
    (∀ t u s c cat dp img src e,
      SummarySchema.validated t u s c cat dp img src = Except.error e →
        validate_date dp = Except.error e) := by
  refine ⟨by decide, fun t u s c cat dp src => rfl, ?_, ?_⟩
  · intro t u s c cat dp img src r h
    unfold SummarySchema.validated at h
    cases hv : validate_date dp with
    | ok d =>
      rw [hv] at h
      simp only [Except.ok.injEq] at h
      subst h
      simp [hv]
    | error e => rw [hv] at h; simp at h
  · intro t u s c cat dp img src e h
    unfold SummarySchema.validated at h
    cases hv : validate_date dp with
    | ok d => rw [hv] at h; simp at h
    | error e2 =>
      rw [hv] at h
      simp only [Except.error.injEq] at h
      subst h
      rfl

/-- Witness for C3 at a concrete record. -/
theorem summarySchema_shape_witness :
    SummarySchema.validated "t" "u" "s" "c" Category.ai "2024-01-02T03:04" none
        "src" =
      Except.ok ⟨"t", "u", "s", "c", Category.ai, "2024-01-02", none, "src"⟩ ∧
    (validate_date "2024-01-02T03:04" = Except.ok "2024-01-02" ∧
      Fintype.card Category = 15) :=
  ⟨by decide,
    (summarySchema_shape.2.2.1 "t" "u" "s" "c" Category.ai "2024-01-02T03:04"
        none "src" ⟨"t", "u", "s", "c", Category.ai, "2024-01-02", none, "src"⟩
        (by decide)).2.2.2.2.2.1,
    summarySchema_shape.1⟩

/-! ### Effectful embedding

The notebook's effects are an HTTP fetch (`requests.get`) and a
structured-output model invocation (`model.ainvoke`).  Computations are
embedded as functions from an event trace to the extended trace together
with a result or an uncaught Python exception: nothing in the notebook
catches exceptions, so every primitive failure aborts the computation. -/

/-- An observable external call: a page fetch for a URL, or one invocation
of the remote structured-output model. -/
inductive Event where
  | fetchEv : String → Event
  | modelEv : Event
deriving DecidableEq, Repr

/-- A computation over an event trace that may raise an uncaught Python
exception. -/
def Eff (α : Type) : Type := List Event → List Event × Except PyError α

/-- Return a value without touching the trace. -/
def Eff.pure {α : Type} (a : α) : Eff α := fun tr => (tr, .ok a)

/-- Sequence two computations; an exception aborts the remainder. -/
def Eff.bind {α β : Type} (x : Eff α) (f : α → Eff β) : Eff β := fun tr =>
  match x tr with
  | (tr2, .ok a) => f a tr2
  | (tr2, .error e) => (tr2, .error e)

/-- Raise a Python exception. -/
def Eff.throw {α : Type} (e : PyError) : Eff α := fun tr => (tr, .error e)

/-- LangChain message objects: human, system and AI messages, each carrying
its content string. -/
inductive Message where
  | human : String → Message
  | system : String → Message
  | ai : String → Message
deriving DecidableEq, Repr

/-- The `.content` attribute of a message. -/
def Message.content : Message → String
  | .human s => s
  | .system s => s
  | .ai s => s

/-- `requests.get(url).content`: one fetch event is recorded; the HTTP
client either returns the raw response body bytes or raises. -/
def requestsGet (fetch : String → Except PyError (List Nat)) (url : String) :
    Eff (List Nat) := fun tr => (tr ++ [Event.fetchEv url], fetch url)

/-- Lower-case hexadecimal digit. -/
def hexDigitChar : Nat → Char
  | 10 => 'a' | 11 => 'b' | 12 => 'c' | 13 => 'd' | 14 => 'e' | 15 => 'f'
  | n => digitChar n

/-- The quote code used by `bytes.__repr__`: a single quote (39), unless the
bytes contain a single quote and no double quote, in which case a double
quote (34). -/
def pyQuote (bs : List Nat) : Nat :=
  if bs.contains 39 && !(bs.contains 34) then 34 else 39

/-- One byte as rendered inside a Python bytes literal with the given quote
code: backslash and the quote are backslash-escaped, tab, newline and
carriage return use their short escapes, other printable ASCII passes
through, everything else becomes a `\xhh` escape. -/
def pyByteEscape (quote b : Nat) : List Char :=
  if b = 92 then ['\\', '\\']
  else if b = quote then ['\\', Char.ofNat quote]
  else if b = 9 then ['\\', 't']
  else if b = 10 then ['\\', 'n']
  else if b = 13 then ['\\', 'r']
  else if 32 ≤ b && b ≤ 126 then [Char.ofNat b]
  else ['\\', 'x', hexDigitChar (b / 16), hexDigitChar (b % 16)]

/-- `repr(bytes)`, which is also what f-string interpolation of a `bytes`
object produces: `b` then the quoted escaped bytes. -/
def pyBytesRepr (bs : List Nat) : String :=
  String.mk ('b' :: Char.ofNat (pyQuote bs) ::
    ((bs.map (pyByteEscape (pyQuote bs))).flatten ++ [Char.ofNat (pyQuote bs)]))

/-- The message string built by `page2string`'s f-string: the fixed header
with the URL in single quotes, a newline, then the interpolated response
body — the undecoded `bytes` object, hence its bytes-literal repr. -/
def pageMessage (url : String) (body : List Nat) : String :=
  "Page content for \x27" ++ url ++ "\x27:\n" ++ pyBytesRepr body

/-- `page2string`: fetch the URL and wrap the raw response content into the
message string. -/
def page2string (fetch : String → Except PyError (List Nat)) (url : String) :
    Eff String :=
  Eff.bind (requestsGet fetch url) (fun html => Eff.pure (pageMessage url html))

/-- A structured-output model bound to `SummarySchema`
(`model.with_structured_output(SummarySchema)`): from the invocation
messages it produces a validated `SummarySchema` instance, or raises (for
malformed model output). -/
def ModelFn : Type := List Message → Except PyError SummarySchema

/-- `model.ainvoke(messages)`: one model event is recorded. -/
def modelAinvoke (model : ModelFn) (msgs : List Message) : Eff SummarySchema :=
  fun tr => (tr ++ [Event.modelEv], model msgs)

/-- JSON string escaping for `model_dump_json`. -/
def jsonEscapeChar (c : Char) : List Char :=
  if c = '"' then ['\\', '"']
  else if c = '\\' then ['\\', '\\']
  else if c = '\n' then ['\\', 'n']
  else if c = '\t' then ['\\', 't']
  else if c = '\r' then ['\\', 'r']
  else if c.toNat < 32 then
    ['\\', 'u', '0', '0', hexDigitChar (c.toNat / 16), hexDigitChar (c.toNat % 16)]
  else [c]

/-- A JSON string literal. -/
def jsonStr (s : String) : String :=
  String.mk ('"' :: ((s.data.map jsonEscapeChar).flatten ++ ['"']))

/-- Pydantic's `model_dump_json(indent=2)` on a `SummarySchema` instance:
the fields in declaration order, two-space indentation, `null` for an absent
`imageUrl`. -/
def model_dump_json (r : SummarySchema) : String :=
  "\x7b\n  \"title\": " ++ jsonStr r.title ++
    ",\n  \"url\": " ++ jsonStr r.url ++
    ",\n  \"summary\": " ++ jsonStr r.summary ++
    ",\n  \"content\": " ++ jsonStr r.content ++
    ",\n  \"category\": " ++ jsonStr r.category.literal ++
    ",\n  \"datePublished\": " ++ jsonStr r.datePublished ++
    ",\n  \"imageUrl\": " ++
      (match r.imageUrl with | some u => jsonStr u | none => "null") ++
    ",\n  \"source\": " ++ jsonStr r.source ++ "\n\x7d"

/-! ### The single-node agent graph -/

/-- LangGraph's `START` sentinel node name. -/
def START : String := "__start__"

/-- The `StateGraph` builder over `MessagesState`: named nodes (functions
from the message list to the update to append) and directed edges. -/
structure StateGraph where
  nodes : List (String × (List Message → Eff (List Message))) := []
  edges : List (String × String) := []

/-- `builder.add_node(name, f)`. -/
def StateGraph.add_node (g : StateGraph) (name : String)
    (f : List Message → Eff (List Message)) : StateGraph :=
  { g with nodes := g.nodes ++ [(name, f)] }

/-- `builder.add_edge(src, dst)`. -/
def StateGraph.add_edge (g : StateGraph) (src dst : String) : StateGraph :=
  { g with edges := g.edges ++ [(src, dst)] }

/-- The compiled agent graph. -/
structure CompiledGraph where
  nodes : List (String × (List Message → Eff (List Message)))
  edges : List (String × String)

/-- `builder.compile()`. -/
def StateGraph.compile (g : StateGraph) : CompiledGraph :=
  ⟨g.nodes, g.edges⟩

/-- Execute the graph from the current node: follow the unique outgoing
edge, run the target node, append its update to the message state (the
`MessagesState` reducer), and continue; fuel bounds the number of steps by
the number of edges. -/
def CompiledGraph.step (g : CompiledGraph) :
    Nat → String → List Message → Eff (List Message)
  | 0, _, msgs => Eff.pure msgs
  | fuel + 1, cur, msgs =>
    match g.edges.find? (fun e => e.1 == cur) with
    | none => Eff.pure msgs
    | some e =>
      match g.nodes.find? (fun n => n.1 == e.2) with
      | none => Eff.pure msgs
      | some n =>
        Eff.bind (n.2 msgs) (fun update => g.step fuel e.2 (msgs ++ update))

/-- `graph.ainvoke({"messages": msgs})`, returning the final message state. -/
def CompiledGraph.ainvoke (g : CompiledGraph) (msgs : List Message) :
    Eff (List Message) :=
  g.step g.edges.length START msgs

/-- The fixed instruction of the `summarize` node's first system message. -/
def summarizerInstruction : String :=
  "You are a web page content summarizer. Use the given output structure to summarize the page content."

/-- The `summarize` node: take the latest message of the state as the HTML
prompt, invoke the structured-output model on the instruction plus that
content, and answer with a single `AIMessage` whose content is the Pydantic
JSON dump of the response. -/
def summarize (model : ModelFn) (state : List Message) : Eff (List Message) :=
  match state.getLast? with
  | none => Eff.throw (.indexError "list index out of range")
  | some html =>
    Eff.bind
      (modelAinvoke model
        [Message.system summarizerInstruction, Message.system html.content])
      (fun response => Eff.pure [Message.ai (model_dump_json response)])

/-- `get_article_extractor(model)`: one node `"summarize"`, one edge from
`START` to it, compiled. -/
def get_article_extractor (model : ModelFn) : CompiledGraph :=
  ((({} : StateGraph).add_node "summarize" (summarize model)).add_edge
      START "summarize").compile

/-- The `AGENTS` dictionary of the notebook: the two uncommented model
configurations, each wrapped by `get_article_extractor`. -/
def AGENTS (qwen granite : ModelFn) : List (String × CompiledGraph) :=
  [("qwen3:8b", get_article_extractor qwen),
   ("granite3.2", get_article_extractor granite)]

/-! ### Runners -/

/-- The loop body of the batch-runner cell: for each agent configuration in
order, run the agent on the one prompt (the streaming runner evaluates the
graph exactly once per agent); an uncaught exception aborts the loop. -/
def runAgentsLoop (prompt : Message) :
    List (String × CompiledGraph) → Eff (List (List Message))
  | [] => Eff.pure []
  | a :: rest =>
    Eff.bind (a.2.ainvoke [prompt]) (fun out =>
      Eff.bind (runAgentsLoop prompt rest) (fun outs => Eff.pure (out :: outs)))

/-- The batch-runner cell: load the URL content once with `page2string`,
wrap it into one `HumanMessage`, then feed that same prompt to every agent
of `AGENTS` in turn. -/
def batchRunnerCell (fetch : String → Except PyError (List Nat))
    (agents : List (String × CompiledGraph)) (url : String) :
    Eff (List (List Message)) :=
  Eff.bind (page2string fetch url) (fun html =>
    runAgentsLoop (Message.human html) agents)

/-- The unit runner (tool) `summarize_article`: load the page, wrap it into
a `HumanMessage`, invoke the fixed `"granite3.2"` agent, and return only the
content of the final message of the response. -/
def summarize_article (qwen granite : ModelFn)
    (fetch : String → Except PyError (List Nat)) (url : String) : Eff String :=
  Eff.bind (page2string fetch url) (fun html =>
    Eff.bind
      (match (AGENTS qwen granite).lookup "granite3.2" with
        | some agent => agent.ainvoke [Message.human html]
        | none => Eff.throw (.keyError "granite3.2"))
      (fun response =>
        match response.getLast? with
        | some msg => Eff.pure msg.content
        | none => Eff.throw (.indexError "list index out of range")))

/-- C4: the agent graph built by `get_article_extractor` contains exactly
one node, `"summarize"`, and exactly one edge, from `START` to
`"summarize"`, whatever model it is built around. -/
theorem get_article_extractor_graph (model : ModelFn) :
    (get_article_extractor model).nodes.map Prod.fst = ["summarize"] ∧
      (get_article_extractor model).edges = [(START, "summarize")] :=
  ⟨rfl, rfl⟩

/-- C8: whenever the fetch succeeds with body `body`, `page2string url`
records the fetch and returns the exact string
`"Page content for '<url>':\n"` followed by the interpolation of the
response content; that content is the undecoded bytes object, so it appears
in Python bytes-literal form: `b` followed by the quoted escaped bytes. -/
theorem page2string_form (fetch : String → Except PyError (List Nat))
    (url : String) (body : List Nat) (tr : List Event)
    (h : fetch url = .ok body) :
    page2string fetch url tr =
      (tr ++ [Event.fetchEv url],
        .ok ("Page content for \x27" ++ url ++ "\x27:\n" ++ pyBytesRepr body)) ∧
      (pyBytesRepr body).data =
        'b' :: Char.ofNat (pyQuote body) ::
          ((body.map (pyByteEscape (pyQuote body))).flatten ++
            [Char.ofNat (pyQuote body)]) := by
  constructor
  · simp [page2string, Eff.bind, Eff.pure, requestsGet, h, pageMessage]
  · rfl

/-- Witness for C8: a fetch returning the ASCII bytes of `<html>` yields the
message with the body in bytes-literal form, not decoded text. -/
theorem page2string_form_witness :
    page2string (fun _ => .ok [60, 104, 116, 109, 108, 62]) "http://u" [] =
        ([Event.fetchEv "http://u"],
          .ok ("Page content for \x27http://u\x27:\n" ++
            pyBytesRepr [60, 104, 116, 109, 108, 62])) ∧
      pyBytesRepr [60, 104, 116, 109, 108, 62] = "b\x27<html>\x27" :=
  ⟨(page2string_form (fun _ => .ok [60, 104, 116, 109, 108, 62]) "http://u"
      [60, 104, 116, 109, 108, 62] [] (by decide)).1, by decide⟩

/-- Running the single-node agent on a one-message state: exactly one model
invocation happens, on the instruction plus the prompt content; on success
the final state is the prompt followed by one `AIMessage` carrying the JSON
dump, and a model exception propagates uncaught. -/
lemma ainvoke_get_article_extractor (model : ModelFn) (p : Message)
    (tr : List Event) :
    (get_article_extractor model).ainvoke [p] tr =
      (tr ++ [Event.modelEv],
        match model [Message.system summarizerInstruction,
            Message.system p.content] with
        | .ok r => .ok [p, Message.ai (model_dump_json r)]
        | .error e => .error e) := by
  cases h : model [Message.system summarizerInstruction,
      Message.system p.content] <;>
    simp [CompiledGraph.ainvoke, get_article_extractor, StateGraph.compile,
      StateGraph.add_node, StateGraph.add_edge, CompiledGraph.step, START,
      summarize, modelAinvoke, Eff.bind, Eff.pure, h, List.find?]

lemma AGENTS_lookup_granite (qwen granite : ModelFn) :
    (AGENTS qwen granite).lookup "granite3.2" =
      some (get_article_extractor granite) := by
  simp [AGENTS, List.lookup]

/-- C5: for every URL, fetched body and model response conforming to
`SummarySchema`, the unit runner `summarize_article` returns exactly the
JSON serialization of that schema instance — the content of the final
message, which the summarize node produced with `model_dump_json` — and
nothing from the earlier message history: the final state is the prompt
followed by that one `AIMessage`, and only the latter's content is
returned. -/
theorem summarize_article_returns_json (qwen granite : ModelFn)
    (fetch : String → Except PyError (List Nat)) (url : String)
    (body : List Nat) (r : SummarySchema) (tr : List Event)
    (hfetch : fetch url = .ok body)
    (hmodel : granite [Message.system summarizerInstruction,
        Message.system (pageMessage url body)] = .ok r) :
    summarize_article qwen granite fetch url tr =
      (tr ++ [Event.fetchEv url, Event.modelEv], .ok (model_dump_json r)) ∧
    (get_article_extractor granite).ainvoke
        [Message.human (pageMessage url body)] (tr ++ [Event.fetchEv url]) =
      (tr ++ [Event.fetchEv url, Event.modelEv],
        .ok [Message.human (pageMessage url body),
          Message.ai (model_dump_json r)]) := by
  have hrun := ainvoke_get_article_extractor granite
    (Message.human (pageMessage url body)) (tr ++ [Event.fetchEv url])
  rw [show (Message.human (pageMessage url body)).content =
      pageMessage url body from rfl, hmodel] at hrun
  constructor
  · unfold summarize_article
    rw [AGENTS_lookup_granite]
    simp [page2string, requestsGet, Eff.bind, Eff.pure, hfetch, hrun,
      Message.content]
  · simpa using hrun

/-- Witness for C5 at a concrete URL, body and model response. -/
theorem summarize_article_returns_json_witness :
    summarize_article
        (fun _ => .error (.outputParseError "bad"))
        (fun _ => .ok ⟨"t", "u", "s", "c", Category.ai, "2024-01-02", none, "x"⟩)
        (fun _ => .ok [104, 105]) "http://u" [] =
      ([Event.fetchEv "http://u", Event.modelEv],
        .ok (model_dump_json
          ⟨"t", "u", "s", "c", Category.ai, "2024-01-02", none, "x"⟩)) :=
  (summarize_article_returns_json
    (fun _ => .error (.outputParseError "bad"))
    (fun _ => .ok ⟨"t", "u", "s", "c", Category.ai, "2024-01-02", none, "x"⟩)
    (fun _ => .ok [104, 105]) "http://u" [104, 105]
    ⟨"t", "u", "s", "c", Category.ai, "2024-01-02", none, "x"⟩ []
    (by decide) rfl).1

/-- C6: besides the date validation, no error is handled anywhere: an
exception raised by the HTTP fetch propagates uncaught out of `page2string`,
the batch-runner cell and `summarize_article`, and an exception from
malformed model output propagates uncaught out of both runners. -/
theorem errors_propagate_uncaught (qwen granite : ModelFn)
    (fetch : String → Except PyError (List Nat)) (url : String) (e : PyError)
    (tr : List Event) :
    (fetch url = .error e →
      (page2string fetch url tr).2 = .error e ∧
        (batchRunnerCell fetch (AGENTS qwen granite) url tr).2 = .error e ∧
        (summarize_article qwen granite fetch url tr).2 = .error e) ∧
    (∀ body, fetch url = .ok body →
      granite [Message.system summarizerInstruction,
          Message.system (pageMessage url body)] = .error e →
      (summarize_article qwen granite fetch url tr).2 = .error e) ∧
    (∀ body, fetch url = .ok body →
      qwen [Message.system summarizerInstruction,
          Message.system (pageMessage url body)] = .error e →
      (batchRunnerCell fetch (AGENTS qwen granite) url tr).2 = .error e) := by
  refine ⟨fun hf => ?_, fun body hf hg => ?_, fun body hf hq => ?_⟩
  · refine ⟨?_, ?_, ?_⟩
    · simp [page2string, requestsGet, Eff.bind, Eff.pure, hf]
    · simp [batchRunnerCell, page2string, requestsGet, Eff.bind, Eff.pure, hf]
    · unfold summarize_article
      rw [AGENTS_lookup_granite]
      simp [page2string, requestsGet, Eff.bind, Eff.pure, hf]
  · have hrun := ainvoke_get_article_extractor granite
      (Message.human (pageMessage url body)) (tr ++ [Event.fetchEv url])
    rw [show (Message.human (pageMessage url body)).content =
        pageMessage url body from rfl, hg] at hrun
    unfold summarize_article
    rw [AGENTS_lookup_granite]
    simp [page2string, requestsGet, Eff.bind, Eff.pure, hf, hrun]
  · have hrun := ainvoke_get_article_extractor qwen
      (Message.human (pageMessage url body)) (tr ++ [Event.fetchEv url])
    rw [show (Message.human (pageMessage url body)).content =
        pageMessage url body from rfl, hq] at hrun
    simp [batchRunnerCell, page2string, requestsGet, Eff.bind, Eff.pure, hf,
      AGENTS, runAgentsLoop, hrun]

/-- Witness for C6: a failing fetch propagates out of all three entry
points. -/
theorem errors_propagate_uncaught_witness :
    (page2string (fun _ => .error (.requestsError "403"))  "u" []).2 =
        .error (.requestsError "403") ∧
      (batchRunnerCell (fun _ => .error (.requestsError "403"))
          (AGENTS (fun _ => .error (.outputParseError "bad"))
            (fun _ => .error (.outputParseError "bad"))) "u" []).2 =
        .error (.requestsError "403") ∧
      (summarize_article (fun _ => .error (.outputParseError "bad"))
          (fun _ => .error (.outputParseError "bad"))
          (fun _ => .error (.requestsError "403")) "u" []).2 =
        .error (.requestsError "403") :=
  (errors_propagate_uncaught (fun _ => .error (.outputParseError "bad"))
    (fun _ => .error (.outputParseError "bad"))
    (fun _ => .error (.requestsError "403")) "u" (.requestsError "403") []).1
    rfl

/-- C7: each run of the batch-runner cell or of the unit runner performs
exactly one page fetch, as its very first external call, before any model
invocation: the recorded trace is the fetch event followed only by model
events.  In particular the batch runner loads the page once and hands the
same prompt to every agent instead of re-fetching per agent. -/
theorem single_fetch_before_models (qwen granite : ModelFn)
    (fetch : String → Except PyError (List Nat)) (url : String) :
    (∃ rest, (batchRunnerCell fetch (AGENTS qwen granite) url []).1 =
        Event.fetchEv url :: rest ∧ ∀ ev ∈ rest, ev = Event.modelEv) ∧
    (∃ rest, (summarize_article qwen granite fetch url []).1 =
        Event.fetchEv url :: rest ∧ ∀ ev ∈ rest, ev = Event.modelEv) := by
  cases hf : fetch url with
  | error e =>
    constructor
    · refine ⟨[], ?_, by simp⟩
      simp [batchRunnerCell, page2string, requestsGet, Eff.bind, Eff.pure, hf]
    · refine ⟨[], ?_, by simp⟩
      unfold summarize_article
      rw [AGENTS_lookup_granite]
      simp [page2string, requestsGet, Eff.bind, Eff.pure, hf]
  | ok body =>
    have hrunq := ainvoke_get_article_extractor qwen
      (Message.human (pageMessage url body)) [Event.fetchEv url]
    have hrung := ainvoke_get_article_extractor granite
      (Message.human (pageMessage url body)) [Event.fetchEv url]
    have hrung2 := ainvoke_get_article_extractor granite
      (Message.human (pageMessage url body)) [Event.fetchEv url, Event.modelEv]
    rw [show (Message.human (pageMessage url body)).content =
        pageMessage url body from rfl] at hrunq hrung hrung2
    constructor
    · cases hq : qwen [Message.system summarizerInstruction,
          Message.system (pageMessage url body)] with
      | error e =>
        rw [hq] at hrunq
        refine ⟨[Event.modelEv], ?_, by simp⟩
        simp [batchRunnerCell, page2string, requestsGet, Eff.bind, Eff.pure,
          hf, AGENTS, runAgentsLoop, hrunq]
      | ok r1 =>
        rw [hq] at hrunq
        refine ⟨[Event.modelEv, Event.modelEv], ?_, by simp⟩
        cases hg : granite [Message.system summarizerInstruction,
            Message.system (pageMessage url body)] with
        | error e =>
          rw [hg] at hrung2
          simp [batchRunnerCell, page2string, requestsGet, Eff.bind, Eff.pure,
            hf, AGENTS, runAgentsLoop, hrunq, hrung2]
        | ok r2 =>
          rw [hg] at hrung2
          simp [batchRunnerCell, page2string, requestsGet, Eff.bind, Eff.pure,
            hf, AGENTS, runAgentsLoop, hrunq, hrung2]
    · cases hg : granite [Message.system summarizerInstruction,
          Message.system (pageMessage url body)] with
      | error e =>
        rw [hg] at hrung
        refine ⟨[Event.modelEv], ?_, by simp⟩
        unfold summarize_article
        rw [AGENTS_lookup_granite]
        simp [page2string, requestsGet, Eff.bind, Eff.pure, hf, hrung]
      | ok r =>
        rw [hg] at hrung
        refine ⟨[Event.modelEv], ?_, by simp⟩
        unfold summarize_article
        rw [AGENTS_lookup_granite]
        simp [page2string, requestsGet, Eff.bind, Eff.pure, hf, hrung]

/-- Witness for C7: with two concrete agents the batch cell records the
fetch first and then exactly one model event per agent. -/
theorem single_fetch_before_models_witness :
    (∃ rest, (batchRunnerCell (fun _ => .ok [104])
        (AGENTS
          (fun _ => .ok ⟨"t", "u", "s", "c", Category.ai, "2024-01-02", none, "x"⟩)
          (fun _ => .ok ⟨"t", "u", "s", "c", Category.ai, "2024-01-02", none, "x"⟩))
        "http://u" []).1 = Event.fetchEv "http://u" :: rest ∧
        ∀ ev ∈ rest, ev = Event.modelEv) ∧
      (batchRunnerCell (fun _ => .ok [104])
        (AGENTS
          (fun _ => .ok ⟨"t", "u", "s", "c", Category.ai, "2024-01-02", none, "x"⟩)
          (fun _ => .ok ⟨"t", "u", "s", "c", Category.ai, "2024-01-02", none, "x"⟩))
        "http://u" []).1 =
      [Event.fetchEv "http://u", Event.modelEv, Event.modelEv] :=
  ⟨(single_fetch_before_models
      (fun _ => .ok ⟨"t", "u", "s", "c", Category.ai, "2024-01-02", none, "x"⟩)
      (fun _ => .ok ⟨"t", "u", "s", "c", Category.ai, "2024-01-02", none, "x"⟩)
      (fun _ => .ok [104]) "http://u").1, by decide⟩

/-! ### The streaming pretty-printer of the batch runner -/

/-- The loop of `stream_and_pretty_print` over the streamed chunks (with
`stream_mode="values"`, each chunk is the full message state at that point):
from the running `message_index`, the messages of the chunk from that index
on are pretty-printed and the index advances by their number.  Returns the
final index and the printed messages in order. -/
def streamLoop (idx : Nat) : List (List Message) → Nat × List Message
  | [] => (idx, [])
  | chunk :: rest =>
    let newMessages := chunk.drop idx
    let next := streamLoop (idx + newMessages.length) rest
    (next.1, newMessages ++ next.2)

/-- `stream_and_pretty_print(agent, prompt)` on the chunks the stream
yields: the running index starts at `1`, skipping the raw-HTML prompt at
index 0. -/
def stream_and_pretty_print (chunks : List (List Message)) : Nat × List Message :=
  streamLoop 1 chunks

lemma streamLoop_index (idx : Nat) (cs : List (List Message)) :
    (streamLoop idx cs).1 = idx + (streamLoop idx cs).2.length := by
  induction cs generalizing idx with
  | nil => simp [streamLoop]
  | cons c rest ih =>
    simp only [streamLoop, List.length_append]
    rw [ih (idx + (c.drop idx).length)]
    omega

lemma streamLoop_printed {c lc : List Message} {cs : List (List Message)}
    (h : List.Chain' (fun a b => a <+: b) (c :: cs))
    (hl : (c :: cs).getLast? = some lc) (idx : Nat) :
    (streamLoop idx (c :: cs)).2 = lc.drop idx ∧ c <+: lc := by
  induction cs generalizing c idx with
  | nil =>
    simp only [List.getLast?_singleton, Option.some.injEq] at hl
    subst hl
    exact ⟨by simp [streamLoop], ⟨[], List.append_nil c⟩⟩
  | cons c2 cs ih =>
    have hl2 : (c2 :: cs).getLast? = some lc := by
      rwa [List.getLast?_cons_cons] at hl
    obtain ⟨h12, h2⟩ := List.chain'_cons.mp h
    obtain ⟨ihp, ihpre⟩ := ih h2 hl2 (idx + (c.drop idx).length)
    have hcl : c <+: lc := h12.trans ihpre
    refine ⟨?_, hcl⟩
    show c.drop idx ++ (streamLoop (idx + (c.drop idx).length) (c2 :: cs)).2 =
      lc.drop idx
    rw [ihp]
    obtain ⟨t, rfl⟩ := hcl
    rw [List.length_drop]
    by_cases hle : idx ≤ c.length
    · rw [show idx + (c.length - idx) = c.length from by omega]
      rw [List.drop_left, List.drop_append_of_le_length hle]
    · rw [show idx + (c.length - idx) = idx from by omega]
      rw [List.drop_eq_nil_of_le (by omega), List.nil_append]

/-- C10: `stream_and_pretty_print` never prints the initial prompt message
at index 0, and prints each message appended after it exactly once: with
chunks streamed in values mode — each chunk extending the previous one, the
first being the prompt-only input state — the final message state is the
prompt followed by exactly the printed messages, in order; and after any
number of processed chunks the running index equals the number of messages
already printed plus one. -/
theorem stream_and_pretty_print_invariant (chunks : List (List Message))
    (prompt : Message) (k : Nat)
    (hchain : List.Chain' (fun a b => a <+: b) chunks)
    (hhead : chunks.head? = some [prompt]) :
    (stream_and_pretty_print (chunks.take k)).1 =
        (stream_and_pretty_print (chunks.take k)).2.length + 1 ∧
      ∀ lc, chunks.getLast? = some lc →
        lc = prompt :: (stream_and_pretty_print chunks).2 ∧
          (stream_and_pretty_print chunks).2 = lc.drop 1 := by
  constructor
  · rw [stream_and_pretty_print, streamLoop_index]
    omega
  · intro lc hlc
    cases chunks with
    | nil => simp at hhead
    | cons c cs =>
      simp only [List.head?_cons, Option.some.injEq] at hhead
      subst hhead
      obtain ⟨hprint, hpre⟩ := streamLoop_printed hchain hlc 1
      obtain ⟨t, rfl⟩ := hpre
      exact ⟨by simp [stream_and_pretty_print, hprint],
        by simp [stream_and_pretty_print, hprint]⟩

/-- Witness for C10 on a concrete two-chunk stream. -/
theorem stream_and_pretty_print_invariant_witness :
    ((stream_and_pretty_print
          ([[Message.human "page"],
            [Message.human "page", Message.ai "out"]].take 2)).1 =
        (stream_and_pretty_print
          ([[Message.human "page"],
            [Message.human "page", Message.ai "out"]].take 2)).2.length + 1) ∧
      ([Message.human "page", Message.ai "out"] =
        Message.human "page" ::
          (stream_and_pretty_print
            [[Message.human "page"],
              [Message.human "page", Message.ai "out"]]).2) ∧
      (stream_and_pretty_print
          [[Message.human "page"],
            [Message.human "page", Message.ai "out"]]).2 = [Message.ai "out"] :=
  ⟨(stream_and_pretty_print_invariant
      [[Message.human "page"], [Message.human "page", Message.ai "out"]]
      (Message.human "page") 2 (by simp) rfl).1,
    ((stream_and_pretty_print_invariant
        [[Message.human "page"], [Message.human "page", Message.ai "out"]]
        (Message.human "page") 2 (by simp) rfl).2
      [Message.human "page", Message.ai "out"] rfl).1,
    by decide⟩
